import Mathlib

/-!
Verification development for the autonomous healthcare lead pipeline.

The repository contains two variants of the same agent:
* `autonomous-agent.js`, class `AutonomousHealthcareAgent` — embedded below in
  namespace `Agent`;
* the TypeScript MCP variant, class `AutonomousHealthcareAgentMCP` — embedded
  below in namespace `MCP`.

Strings are modelled by Lean `String` (a packed `List Char`); the string
utilities shared by the two files (`extractCompanyFromDomain`,
`generatePracticeId`) are translated at the character-list level so that every
definition evaluates by `decide`.  `Math.random()` draws are passed in
explicitly: the raw draw in `[0,1)` as a rational where the arithmetic on it
matters (the lead score), and the already-floored index where the code only
uses `Math.floor(Math.random() * list.length)` as a uniform index.  Wall-clock
readings (`Date.now()`) are passed in as explicit `ts`/`elapsed` parameters;
ISO timestamp strings are elided from the records.
-/

/-- Test of the character class `[a-z0-9]` used by `generatePracticeId`'s
`replace(/[^a-z0-9]/g, '-')` step. -/
def isLowerAlnum (c : Char) : Bool :=
  decide (('a' ≤ c ∧ c ≤ 'z') ∨ ('0' ≤ c ∧ c ≤ '9'))

/-- `.replace(/^www\./, '')`: drop a single leading `www.` label. -/
def stripWwwL (s : List Char) : List Char :=
  match s with
  | 'w' :: 'w' :: 'w' :: '.' :: rest => rest
  | _ => s

/-- `.replace(/\.(com|co\.uk|org|net)$/, '')`: drop one known top-level-domain
suffix.  The regex is anchored at the end, so it is exactly an `endsWith`
test for each alternative. -/
def stripTldL (s : List Char) : List Char :=
  if ['.', 'c', 'o', '.', 'u', 'k'].isSuffixOf s then s.take (s.length - 6)
  else if ['.', 'c', 'o', 'm'].isSuffixOf s then s.take (s.length - 4)
  else if ['.', 'o', 'r', 'g'].isSuffixOf s then s.take (s.length - 4)
  else if ['.', 'n', 'e', 't'].isSuffixOf s then s.take (s.length - 4)
  else s

/-- `.split(/[-.]/)`: split at every `-` or `.`, keeping empty segments,
exactly as JavaScript `String.prototype.split` does. -/
def splitSegsL (s : List Char) : List (List Char) :=
  match s with
  | [] => [[]]
  | c :: cs =>
    let r := splitSegsL cs
    if c = '-' ∨ c = '.' then [] :: r
    else
      match r with
      | [] => [[c]]
      | w :: ws => (c :: w) :: ws

/-- `word.charAt(0).toUpperCase() + word.slice(1)`. -/
def capitalizeL (w : List Char) : List Char :=
  match w with
  | [] => []
  | c :: cs => c.toUpper :: cs

/-- `.join(' ')`. -/
def joinSpaceL (ws : List (List Char)) : List Char :=
  match ws with
  | [] => []
  | [w] => w
  | w :: ws => w ++ ' ' :: joinSpaceL ws

/-- `extractCompanyFromDomain(domain)`, identical in both agent files:
strip `www.`, strip a known TLD, split on `-`/`.`, capitalize each segment,
join with spaces and append `" Clinic"`. -/
def extractCompanyFromDomain (domain : String) : String :=
  ⟨joinSpaceL ((splitSegsL (stripTldL (stripWwwL domain.data))).map capitalizeL) ++
    " Clinic".data⟩

/-- `.replace(/[^a-z0-9]/g, '-')`. -/
def dashifyL (s : List Char) : List Char :=
  s.map fun c => if isLowerAlnum c then c else '-'

/-- `.replace(dash-run regex, '-')` (source: slash, dash, plus, slash, g):
collapse every run of dashes to a single dash. -/
def collapseDashesL : List Char → List Char
  | [] => []
  | c :: cs =>
    if c = '-' then
      (if (collapseDashesL cs).head? = some '-' then collapseDashesL cs
       else '-' :: collapseDashesL cs)
    else c :: collapseDashesL cs

/-- One step of `.replace(edge-dash regex, '')` (source: slash, caret, dash,
pipe, dash, dollar, slash, g): drop a single leading dash.  After the dash-run
collapse the string has no dash runs, so the regex removes at most one dash at
each end. -/
def stripLeadDash (s : List Char) : List Char :=
  match s with
  | [] => []
  | c :: cs => if c = '-' then cs else c :: cs

/-- The full edge-dash replace on a dash-collapsed string: one leading and one
trailing dash removed. -/
def stripEdgeDashesL (s : List Char) : List Char :=
  (stripLeadDash (stripLeadDash s).reverse).reverse

/-- `generatePracticeId(domain)`, identical in both agent files.  Note the
source order: the `substring(0, 25)` truncation runs last, after the
edge-dash stripping. -/
def generatePracticeIdL (s : List Char) : List Char :=
  (stripEdgeDashesL (collapseDashesL (dashifyL
    ((stripTldL (stripWwwL s)).map Char.toLower)))).take 25

/-- String wrapper for `generatePracticeId`. -/
def generatePracticeId (domain : String) : String :=
  ⟨generatePracticeIdL domain.data⟩

/-- Model of WHATWG `new URL(url).hostname` for the simple
`scheme://host/path` URLs this repository feeds it: drop everything through
the first `://`, then take the host up to a delimiter. -/
def hostAfterScheme (s : List Char) : List Char :=
  match s with
  | ':' :: '/' :: '/' :: rest => rest
  | _ :: cs => hostAfterScheme cs
  | [] => []

/-- Hostname component of a URL (see `hostAfterScheme`). -/
def hostname (url : String) : String :=
  ⟨(hostAfterScheme url.data).takeWhile
    (fun c => !(c == '/' || c == ':' || c == '?' || c == '#'))⟩

/-- `Math.floor(Math.random() * 30) + 70`, the synthesized lead score, with
the raw `Math.random()` draw `q ∈ [0,1)` modelled as a rational. -/
def leadScoreOf (q : ℚ) : ℤ :=
  ⌊q * 30⌋ + 70

/-! ## Data model -/

/-- The five fixed pipeline phases named by the spec. -/
inductive Phase
  | discovery
  | storage
  | voice
  | provisioning
  | deployment
deriving DecidableEq

/-- Practice data assembled by the discovery phase (`scrapeHealthcareWebsite`
in `autonomous-agent.js`, `analyzeHealthcareWebsite` in the MCP variant).
`brandColors` is a constant object in both files and is elided. -/
structure PracticeData where
  company : String
  contactName : String
  phone : String
  email : String
  location : String
  services : List String
  practiceType : String
  practiceId : String
  leadSource : String
  leadScore : ℤ
deriving DecidableEq

/-- The per-Target result object.  Both variants build it with string field
values; fields that a given code path does not set are `none` (absent in the
JavaScript object).  ISO timestamp strings are elided. -/
structure LeadRecord where
  leadId : Option String := none
  url : String
  status : String
  company : Option String := none
  doctor : Option String := none
  demoUrl : Option String := none
  agentId : Option String := none
  notionId : Option String := none
  voiceAgentId : Option String := none
  notionPageId : Option String := none
  repositoryUrl : Option String := none
  leadScore : Option ℤ := none
  error : Option String := none
  duration : Option Nat := none
  method : Option String := none
deriving DecidableEq

/-- GitHub repository object (response of the create-repo call). -/
structure Repository where
  name : String
  html_url : String
deriving DecidableEq

/-- Explicit model of the `Math.random()` draws one discovery phase makes:
the two already-floored name indices and the raw lead-score draw. -/
structure Draws where
  nameFirst : Nat
  nameLast : Nat
  score : ℚ
deriving DecidableEq

/-- Observable events of one batch run of `executeAutonomousWorkflow`:
session setup, one `processed` event per Target handled (with the status of
the record pushed for it), the inter-Target `sleep(3000)`, and session
teardown. -/
inductive BatchEvent
  | connect
  | processed (url : String) (status : String)
  | sleep
  | disconnect
deriving DecidableEq

/-- The record the Batch Orchestrator's per-Target catch handler pushes:
`{ url, status: 'failed', error: error.message, timestamp }` — note it has no
`leadId` and no `duration` field (both variants, `executeAutonomousWorkflow`). -/
def orchestratorFailedRecord (url msg : String) : LeadRecord :=
  { url := url, status := "failed", error := some msg }

/-- The record the Pipeline Executor's own catch branch returns
(`processHealthcareWebsite`, both variants): it carries the lead id, the
error message, and the elapsed duration. -/
def failedRecord (ts : Nat) (url msg : String) (elapsed : Nat)
    (method : Option String) : LeadRecord :=
  { leadId := some ("lead-" ++ toString ts), url := url, status := "failed",
    error := some msg, duration := some elapsed, method := method }

/-! ## The `autonomous-agent.js` variant (class `AutonomousHealthcareAgent`) -/

namespace Agent

/-- Outcomes of this variant's external calls, fixed for one pipeline run:
the Notion `axios.post` (page id or upstream error message), the GitHub
create-repo `axios.post` (`html_url` or upstream message), and the shell
commands of `personalizeRepository` (upstream message on failure). -/
structure Env where
  notion : Except String String
  github : Except String String
  personalize : Except String Unit

/-- The candidate first names of `generateDoctorName`. -/
def firstNames : List String :=
  ["Sarah", "Michael", "Emma", "James", "Sophie", "David", "Rachel", "Thomas"]

/-- The candidate last names of `generateDoctorName`. -/
def lastNames : List String :=
  ["Smith", "Johnson", "Williams", "Brown", "Jones", "Garcia", "Miller", "Davis"]

/-- `generateDoctorName()`: an unseeded uniform pick from each list.  `i` and
`j` model `Math.floor(Math.random() * list.length)` and are therefore always
`< list.length`. -/
def generateDoctorName (i j : Nat) : String :=
  firstNames.getD i "" ++ " " ++ lastNames.getD j ""

/-- `scrapeHealthcareWebsite(url)`: this variant never contacts a scraping
provider; it always synthesizes the practice data from the URL. -/
def scrapeHealthcareWebsite (r : Draws) (url : String) : PracticeData :=
  let domain := hostname url
  { company := extractCompanyFromDomain domain,
    contactName := "Dr. " ++ generateDoctorName r.nameFirst r.nameLast,
    phone := "+44 20 7123 4567",
    email := "info@" ++ domain,
    location := "London, UK",
    services := ["Cosmetic Surgery", "Dermatology", "Aesthetic Treatments"],
    practiceType := "beauty",
    practiceId := generatePracticeId domain,
    leadSource := "web-scraping",
    leadScore := leadScoreOf r.score }

/-- `storeLeadInNotion`: on an `axios` failure it throws
`Notion storage failed: <message>` — the provider error propagates. -/
def storeLeadInNotion (env : Env) : Except String String :=
  match env.notion with
  | .ok pageId => .ok pageId
  | .error m => .error ("Notion storage failed: " ++ m)

/-- `createElevenLabsAgent`: builds the agent id locally; the catch branch is
unreachable, so the call always succeeds. -/
def createElevenLabsAgent (d : PracticeData) (ts : Nat) : String :=
  "agent_" ++ toString ts ++ "_" ++ d.practiceId

/-- `createPersonalizedRepository`: a failing GitHub call or a failing
`personalizeRepository` shell step throws
`Repository creation failed: <message>`. -/
def createPersonalizedRepository (env : Env) (d : PracticeData) (ts : Nat) :
    Except String Repository :=
  let repoName := d.practiceId ++ "-demo-" ++ toString ts
  match env.github with
  | .error m => .error ("Repository creation failed: " ++ m)
  | .ok htmlUrl =>
    match env.personalize with
    | .error m =>
      .error ("Repository creation failed: " ++
        ("Repository personalization failed: " ++ m))
    | .ok _ => .ok { name := repoName, html_url := htmlUrl }

/-- Deployment object of `deployToRailway` (mock deployment; the catch branch
is unreachable, so the call always succeeds). -/
structure Deployment where
  url : String
  status : String
  projectId : String
  serviceId : String
deriving DecidableEq

/-- `deployToRailway`. -/
def deployToRailway (d : PracticeData) (ts : Nat) : Deployment :=
  { url := "https://" ++ d.practiceId ++ "-service-production.up.railway.app",
    status := "deployed",
    projectId := "proj_" ++ toString ts,
    serviceId := "svc_" ++ toString ts }

/-- `processHealthcareWebsite(websiteUrl)`: the phase sequence of this
variant, with the list of phases attempted in order.  `updateNotionWithResults`
(labelled PHASE 5 in the source) swallows its own errors and returns nothing,
so it is elided.  The returned record is the value of the `try` branch or of
the surrounding `catch` branch. -/
def processHealthcareWebsite (env : Env) (r : Draws) (ts elapsed : Nat)
    (url : String) : LeadRecord × List Phase :=
  let d := scrapeHealthcareWebsite r url
  match storeLeadInNotion env with
  | .error e =>
    (failedRecord ts url e elapsed none, [Phase.discovery, Phase.storage])
  | .ok notionId =>
    let agentId := createElevenLabsAgent d ts
    match createPersonalizedRepository env d ts with
    | .error e =>
      (failedRecord ts url e elapsed none,
       [Phase.discovery, Phase.storage, Phase.voice, Phase.provisioning])
    | .ok repo =>
      let dep := deployToRailway d ts
      ({ leadId := some ("lead-" ++ toString ts), url := url,
         status := "success",
         company := some d.company, doctor := some d.contactName,
         demoUrl := some dep.url, agentId := some agentId,
         notionId := some notionId, repositoryUrl := some repo.html_url,
         error := none, duration := some elapsed },
       [Phase.discovery, Phase.storage, Phase.voice, Phase.provisioning,
        Phase.deployment])

/-- The hard-coded target list of this variant. -/
def healthcareTargets : List String :=
  ["https://www.theprivateclinic.co.uk",
   "https://www.harleystreetskinclinic.com",
   "https://www.152harleystreet.com",
   "https://www.eaclinic.co.uk",
   "https://harleyclinic.com",
   "https://www.111harleystreet.com",
   "https://www.theplasticsurgerygroup.co.uk",
   "https://www.harleymedical.co.uk"]

/-- An environment in which every external provider call fails. -/
def envAllDown : Env :=
  { notion := .error "connect ECONNREFUSED",
    github := .error "connect ECONNREFUSED",
    personalize := .error "git clone failed" }

/-- An environment in which every external provider call succeeds. -/
def envAllUp : Env :=
  { notion := .ok "page-01",
    github := .ok "https://github.com/jomarcello/demo-1",
    personalize := .ok () }

end Agent


/-! ## The TypeScript MCP variant (class `AutonomousHealthcareAgentMCP`) -/

namespace MCP

/-- Data the Playwright `playwright_evaluate` script extracts from the page
when real scraping succeeds. -/
structure ScrapedInfo where
  title : String
  contact : String
  email : String
  services : List String
deriving DecidableEq

/-- Outcomes of this variant's external calls, fixed for one pipeline run:
* `playwright` — `some info` when the Playwright MCP session is connected and
  navigation, evaluation and JSON parsing all succeed; `none` otherwise;
* `github` — the `gh api` / git shell commands of
  `createPersonalizedRepository`: created repo `html_url`, or the failing
  command's message;
* `railway` — `some projectId` when the Railway MCP session is connected and
  `project_create` returns a parseable project id;
* `eleven` — `some (voiceId, voiceName)` when the ElevenLabs direct API lists
  voices and synthesis succeeds;
* `notion` — `some pageId` when the Notion MCP session is connected and
  `create-page` succeeds. -/
structure Env where
  playwright : Option ScrapedInfo
  github : Except String String
  railway : Option String
  eleven : Option (String × String)
  notion : Option String

/-- The candidate first names of this variant's `generateDoctorName`. -/
def firstNames : List String :=
  ["Sarah", "Michael", "Emma", "James", "Sophie", "David"]

/-- The candidate last names of this variant's `generateDoctorName`. -/
def lastNames : List String :=
  ["Smith", "Johnson", "Williams", "Brown", "Jones", "Garcia"]

/-- `generateDoctorName()`: an unseeded uniform pick from each list.  `i` and
`j` model `Math.floor(Math.random() * list.length)` and are therefore always
`< list.length`. -/
def generateDoctorName (i j : Nat) : String :=
  firstNames.getD i "" ++ " " ++ lastNames.getD j ""

/-- `analyzeHealthcareWebsite(url)`: attempt real Playwright scraping; on any
provider unavailability or failure fall back to URL-derived data tagged
`fallback-analysis`.  The JavaScript `||` defaults on the scraped strings are
modelled by the emptiness tests (falsy empty string). -/
def analyzeHealthcareWebsite (env : Env) (r : Draws) (url : String) :
    PracticeData :=
  let domain := hostname url
  let practiceId := generatePracticeId domain
  match env.playwright with
  | some info =>
    { company := if info.title = "" then extractCompanyFromDomain domain
                 else info.title,
      contactName := "Dr. " ++ generateDoctorName r.nameFirst r.nameLast,
      phone := if info.contact = "" then "+44 20 7123 4567" else info.contact,
      email := if info.email = "" then "info@" ++ domain else info.email,
      location := "London, UK",
      services := if info.services.isEmpty then ["Healthcare Services"]
                  else info.services,
      practiceType := "healthcare",
      practiceId := practiceId,
      leadSource := "playwright-mcp-scraping",
      leadScore := leadScoreOf r.score }
  | none =>
    { company := extractCompanyFromDomain domain,
      contactName := "Dr. " ++ generateDoctorName r.nameFirst r.nameLast,
      phone := "+44 20 7123 4567",
      email := "info@" ++ domain,
      location := "London, UK",
      services := ["Aesthetic Treatments", "Cosmetic Surgery", "Skin Care"],
      practiceType := "beauty",
      practiceId := practiceId,
      leadSource := "fallback-analysis",
      leadScore := leadScoreOf r.score }

/-- `createPersonalizedRepository`: runs `gh api` and git via `execSync`; any
shell failure throws `Repository creation failed: <message>` — there is no
fallback for this phase. -/
def createPersonalizedRepository (env : Env) (d : PracticeData) (ts : Nat) :
    Except String Repository :=
  let repoName := d.practiceId ++ "-mcp-demo-" ++ toString ts
  match env.github with
  | .error m => .error ("Repository creation failed: " ++ m)
  | .ok htmlUrl => .ok { name := repoName, html_url := htmlUrl }

/-- Deployment object of `deployToRailwayMCP`, carrying its provenance in
`method`. -/
structure Deployment where
  url : String
  status : String
  projectId : String
  method : String
deriving DecidableEq

/-- `deployToRailwayMCP`: real Railway MCP call when available, otherwise the
fallback simulation; both produce the same URL. -/
def deployToRailwayMCP (env : Env) (d : PracticeData) (ts : Nat) : Deployment :=
  match env.railway with
  | some projectId =>
    { url := "https://" ++ d.practiceId ++ "-mcp-demo-production.up.railway.app",
      status := "deployed", projectId := projectId, method := "railway-mcp" }
  | none =>
    { url := "https://" ++ d.practiceId ++ "-mcp-demo-production.up.railway.app",
      status := "deployed", projectId := "fallback_" ++ toString ts,
      method := "fallback" }

/-- Voice agent object of `createVoiceAgentMCP`, carrying its provenance in
`method`. -/
structure VoiceAgent where
  status : String
  agentId : String
  method : String
deriving DecidableEq

/-- `createVoiceAgentMCP`: ElevenLabs direct API when it works end to end,
otherwise the enhanced fallback configuration. -/
def createVoiceAgentMCP (env : Env) (d : PracticeData) (ts : Nat) : VoiceAgent :=
  match env.eleven with
  | some _ =>
    { status := "created_with_direct_api",
      agentId := "elevenlabs_voice_" ++ toString ts,
      method := "elevenlabs_direct_api" }
  | none =>
    { status := "fallback_created",
      agentId := "voice_agent_" ++ d.practiceId ++ "_" ++ toString ts,
      method := "fallback_enhanced" }

/-- Notion storage result of `storeLeadInNotionMCP`, carrying its provenance
in `method`. -/
structure NotionStorage where
  status : String
  pageId : String
  method : String
deriving DecidableEq

/-- `storeLeadInNotionMCP`: Notion MCP call when available, otherwise the
fallback storage simulation. -/
def storeLeadInNotionMCP (env : Env) (ts : Nat) : NotionStorage :=
  match env.notion with
  | some pageId => { status := "stored", pageId := pageId, method := "notion-mcp" }
  | none =>
    { status := "simulated", pageId := "notion_page_" ++ toString ts,
      method := "fallback" }

/-- `processHealthcareWebsite(websiteUrl)`: the phase sequence of the MCP
variant — analysis, then repository creation, then Railway deployment, then
voice agent, then Notion storage — with the list of phases attempted in
order.  Only the repository phase can throw; the surrounding `catch` turns
that into a `failed` record. -/
def processHealthcareWebsite (env : Env) (r : Draws) (ts elapsed : Nat)
    (url : String) : LeadRecord × List Phase :=
  let d := analyzeHealthcareWebsite env r url
  match createPersonalizedRepository env d ts with
  | .error e =>
    (failedRecord ts url e elapsed (some "typescript-mcp"),
     [Phase.discovery, Phase.provisioning])
  | .ok repo =>
    let dep := deployToRailwayMCP env d ts
    let voice := createVoiceAgentMCP env d ts
    let stored := storeLeadInNotionMCP env ts
    ({ leadId := some ("lead-" ++ toString ts), url := url,
       status := "success",
       company := some d.company, doctor := some d.contactName,
       demoUrl := some dep.url, repositoryUrl := some repo.html_url,
       voiceAgentId := some voice.agentId, notionPageId := some stored.pageId,
       leadScore := some d.leadScore, error := none,
       duration := some elapsed, method := some "typescript-mcp-complete" },
     [Phase.discovery, Phase.provisioning, Phase.deployment, Phase.voice,
      Phase.storage])

/-- The hard-coded target list of this variant. -/
def healthcareTargets : List String :=
  ["https://www.theprivateclinic.co.uk",
   "https://www.harleystreetskinclinic.com",
   "https://www.152harleystreet.com",
   "https://www.eaclinic.co.uk",
   "https://harleyclinic.com"]

/-- An environment in which every external provider is unavailable. -/
def envAllDown : Env :=
  { playwright := none,
    github := .error "connect ECONNREFUSED",
    railway := none,
    eleven := none,
    notion := none }

/-- An environment in which every external provider call succeeds. -/
def envAllUp : Env :=
  { playwright := some { title := "The Private Clinic",
                         contact := "+44 20 7000 0000",
                         email := "info@theprivateclinic.co.uk",
                         services := ["Cosmetic Surgery"] },
    github := .ok "https://github.com/jomarcello/demo-2",
    railway := some "0a1b2c3d",
    eleven := some ("voice-01", "Rachel"),
    notion := some "page-02" }

end MCP

/-! ## Batch Orchestrator

Both variants run the same per-Target loop in `executeAutonomousWorkflow`:
invoke the Pipeline Executor, push its record, and — inside the same `try`,
when the Target is not the last — sleep 3 seconds.  A fault thrown by the
Executor is caught by the per-Target handler, which pushes
`orchestratorFailedRecord` and (because the throw skipped the rest of the
`try` block) does not sleep.  The Executor in both sources returns rather
than throws, so the handler is only reachable through the hypothetical fault
injection modelled by `escape`. -/

/-- The orchestrator loop over the selected targets.  `proc` is the Pipeline
Executor; `escape url = some msg` injects an uncaught Executor fault for that
Target.  Returns the pushed records and the observable events in order. -/
def batchLoop (proc : String → LeadRecord) (escape : String → Option String) :
    List String → List LeadRecord × List BatchEvent
  | [] => ([], [])
  | url :: rest =>
    let tail := batchLoop proc escape rest
    match escape url with
    | some e =>
      (orchestratorFailedRecord url e :: tail.1,
       BatchEvent.processed url "failed" :: tail.2)
    | none =>
      let r0 := proc url
      let sleepEvs : List BatchEvent :=
        if rest.isEmpty then [] else [BatchEvent.sleep]
      (r0 :: tail.1, BatchEvent.processed url r0.status :: (sleepEvs ++ tail.2))

/-- `executeAutonomousWorkflow(leadCount)` of the MCP variant, generalized
over the instance's target list: select `targets.slice(0, leadCount)`, connect
the MCP sessions, run the per-Target loop, and — in the `finally` block —
always disconnect the sessions. -/
def MCP.executeAutonomousWorkflow (env : Env) (r : Draws) (ts elapsed : Nat)
    (escape : String → Option String) (targets : List String)
    (leadCount : Nat) : List LeadRecord × List BatchEvent :=
  let selected := targets.take leadCount
  let body := batchLoop
    (fun url => (MCP.processHealthcareWebsite env r ts elapsed url).1)
    escape selected
  (body.1, BatchEvent.connect :: body.2 ++ [BatchEvent.disconnect])

/-- `executeAutonomousWorkflow(leadCount)` of `autonomous-agent.js`,
generalized over the instance's target list; this variant holds no provider
sessions, so there are no connect/disconnect events. -/
def Agent.executeAutonomousWorkflow (env : Env) (r : Draws) (ts elapsed : Nat)
    (escape : String → Option String) (targets : List String)
    (leadCount : Nat) : List LeadRecord × List BatchEvent :=
  batchLoop
    (fun url => (Agent.processHealthcareWebsite env r ts elapsed url).1)
    escape (targets.take leadCount)

/-- The Target URL carried by a `processed` event, if any. -/
def eventUrl (e : BatchEvent) : Option String :=
  match e with
  | BatchEvent.processed url _ => some url
  | _ => none

/-- Whether an event is the inter-Target suspension. -/
def isSleep (e : BatchEvent) : Bool :=
  match e with
  | BatchEvent.sleep => true
  | _ => false

/-! ## Helper lemmas -/

/-- The MCP Pipeline Executor always returns a record whose status is either
`success` or `failed`. -/
theorem mcp_process_status (env : MCP.Env) (r : Draws) (ts elapsed : Nat)
    (url : String) :
    (MCP.processHealthcareWebsite env r ts elapsed url).1.status = "success" ∨
    (MCP.processHealthcareWebsite env r ts elapsed url).1.status = "failed" := by
  obtain ⟨p, g, w, e, n⟩ := env
  cases g <;>
    simp [MCP.processHealthcareWebsite, MCP.createPersonalizedRepository,
      failedRecord]

/-- The `autonomous-agent.js` Pipeline Executor always returns a record whose
status is either `success` or `failed`. -/
theorem agent_process_status (env : Agent.Env) (r : Draws) (ts elapsed : Nat)
    (url : String) :
    (Agent.processHealthcareWebsite env r ts elapsed url).1.status = "success" ∨
    (Agent.processHealthcareWebsite env r ts elapsed url).1.status = "failed" := by
  obtain ⟨n, g, w⟩ := env
  cases n <;> cases g <;> cases w <;>
    simp [Agent.processHealthcareWebsite, Agent.storeLeadInNotion,
      Agent.createPersonalizedRepository, failedRecord]

/-- Every selected Target produces exactly one `processed` event, in input
order, whether or not an Executor fault was injected for it. -/
theorem batchLoop_processed_urls (proc : String → LeadRecord)
    (escape : String → Option String) (l : List String) :
    ((batchLoop proc escape l).2).filterMap eventUrl = l := by
  induction l with
  | nil => rfl
  | cons u rest ih =>
    simp only [batchLoop]
    cases escape u with
    | some e => simpa [eventUrl] using ih
    | none =>
      cases rest with
      | nil => simp [eventUrl, batchLoop]
      | cons v vs => simpa [eventUrl] using ih

/-- One record is pushed per selected Target. -/
theorem batchLoop_length (proc : String → LeadRecord)
    (escape : String → Option String) (l : List String) :
    ((batchLoop proc escape l).1).length = l.length := by
  induction l with
  | nil => rfl
  | cons u rest ih =>
    simp only [batchLoop]
    cases escape u <;> simpa using ih

/-- With no injected Executor fault — the actual behaviour, since both
Executors return rather than throw — the loop sleeps exactly once between
consecutive Targets. -/
theorem batchLoop_sleep_count (proc : String → LeadRecord) (l : List String) :
    ((batchLoop proc (fun _ => none) l).2).countP isSleep = l.length - 1 := by
  induction l with
  | nil => rfl
  | cons u rest ih =>
    cases rest with
    | nil => rfl
    | cons v vs =>
      have hstep : (batchLoop proc (fun _ => none) (u :: v :: vs)).2
          = BatchEvent.processed u (proc u).status ::
            ([BatchEvent.sleep] ++
              (batchLoop proc (fun _ => none) (v :: vs)).2) := rfl
      rw [hstep]
      simp only [List.singleton_append, List.countP_cons, isSleep,
        List.length_cons] at ih ⊢
      simp at ih ⊢
      omega

/-! ## Claims -/

/-- C1 counterexample: with every provider unavailable, the MCP pipeline run
for `https://www.example-clinic.com` completes with LeadRecord status
`failed` (the repository-provisioning phase propagates the provider error),
not `success` as the claim states. -/
theorem claim_C1_counterexample :
    (MCP.processHealthcareWebsite MCP.envAllDown ⟨0, 0, 0⟩ 0 0
      "https://www.example-clinic.com").1.status = "failed" := by
  decide

/-- C1 (amended): for a Target where every provider is unavailable, the
phases that have fallbacks tag their outputs `fallback`
(discovery `fallback-analysis`, deployment `fallback`, voice
`fallback_enhanced`, storage `fallback`), but repository provisioning has no
fallback and propagates the provider error, so the pipeline run completes
with LeadRecord status `failed` — in the `autonomous-agent.js` variant the
Notion storage phase likewise propagates, with the same `failed` outcome. -/
theorem claim_C1_amended (r : Draws) (ts elapsed : Nat) (url : String)
    (d : PracticeData) :
    (MCP.processHealthcareWebsite MCP.envAllDown r ts elapsed url).1.status
      = "failed"
    ∧ (MCP.analyzeHealthcareWebsite MCP.envAllDown r url).leadSource
      = "fallback-analysis"
    ∧ (MCP.deployToRailwayMCP MCP.envAllDown d ts).method = "fallback"
    ∧ (MCP.createVoiceAgentMCP MCP.envAllDown d ts).method
      = "fallback_enhanced"
    ∧ (MCP.storeLeadInNotionMCP MCP.envAllDown ts).method = "fallback"
    ∧ (Agent.processHealthcareWebsite Agent.envAllDown r ts elapsed url).1.status
      = "failed" :=
  ⟨rfl, rfl, rfl, rfl, rfl, rfl⟩

/-- C2 counterexample: with every provider available, the MCP pipeline's
phase trace is discovery, provisioning, deployment, voice, storage — not the
claimed discovery, storage, voice, provisioning, deployment. -/
theorem claim_C2_counterexample :
    (MCP.processHealthcareWebsite MCP.envAllUp ⟨0, 0, 0⟩ 0 0
      "https://www.theprivateclinic.co.uk").2
      ≠ [Phase.discovery, Phase.storage, Phase.voice, Phase.provisioning,
         Phase.deployment] := by
  decide

/-- C2 (amended): per Target the phases run strictly sequentially in a fixed
per-variant order — each variant's trace is always a prefix of its full fixed
order, cut short only when a phase throws.  In `autonomous-agent.js` the
order is discovery, storage, voice, provisioning, deployment; in the MCP
variant it is discovery, provisioning, deployment, voice, storage. -/
theorem claim_C2_amended (envA : Agent.Env) (envM : MCP.Env) (r : Draws)
    (ts elapsed : Nat) (url : String) :
    (∃ n, (Agent.processHealthcareWebsite envA r ts elapsed url).2
      = [Phase.discovery, Phase.storage, Phase.voice, Phase.provisioning,
         Phase.deployment].take n)
    ∧ (∃ n, (MCP.processHealthcareWebsite envM r ts elapsed url).2
      = [Phase.discovery, Phase.provisioning, Phase.deployment, Phase.voice,
         Phase.storage].take n) := by
  constructor
  · obtain ⟨n, g, w⟩ := envA
    cases n with
    | error m =>
      exact ⟨2, rfl⟩
    | ok pageId =>
      cases g with
      | error m => exact ⟨4, rfl⟩
      | ok htmlUrl =>
        cases w with
        | error m => exact ⟨4, rfl⟩
        | ok u => exact ⟨5, rfl⟩
  · obtain ⟨p, g, w, e, n⟩ := envM
    cases g with
    | error m => exact ⟨2, rfl⟩
    | ok htmlUrl => exact ⟨5, rfl⟩

/-- C3: the practice-name derivation shared by both variants, applied to
`www.example-clinic.co.uk`, returns exactly `Example Clinic Clinic`; as a
pure Lean function of the input string it is deterministic. -/
theorem claim_C3 :
    extractCompanyFromDomain "www.example-clinic.co.uk"
      = "Example Clinic Clinic" := by
  decide

/-- C4: for every raw draw `q ∈ [0,1)`, the synthesized lead score
`Math.floor(q * 30) + 70` is an integer in `[70, 99]`, and both discovery
phases assign exactly this score to the practice data. -/
theorem claim_C4 (q : ℚ) (h0 : 0 ≤ q) (h1 : q < 1) (env : MCP.Env)
    (r : Draws) (url : String) :
    (70 ≤ leadScoreOf q ∧ leadScoreOf q ≤ 99)
    ∧ (MCP.analyzeHealthcareWebsite env r url).leadScore = leadScoreOf r.score
    ∧ (Agent.scrapeHealthcareWebsite r url).leadScore = leadScoreOf r.score := by
  refine ⟨⟨?_, ?_⟩, ?_, rfl⟩
  · have hf : (0 : ℤ) ≤ ⌊q * 30⌋ := Int.floor_nonneg.2 (by positivity)
    unfold leadScoreOf
    omega
  · have hf : ⌊q * 30⌋ < 30 := by
      have h30 : q * 30 < 30 := by nlinarith
      exact_mod_cast Int.floor_lt.2 (by exact_mod_cast h30)
    unfold leadScoreOf
    omega
  · cases hp : env.playwright <;>
      simp [MCP.analyzeHealthcareWebsite, hp]

/-- C4 witness: the bounds instantiated at the concrete draw `q = 1/2`. -/
theorem claim_C4_witness :
    (0 : ℚ) ≤ 1 / 2 ∧ (1 / 2 : ℚ) < 1 ∧
      (70 ≤ leadScoreOf (1 / 2) ∧ leadScoreOf (1 / 2) ≤ 99) :=
  ⟨by norm_num, by norm_num,
   (claim_C4 (1 / 2) (by norm_num) (by norm_num) MCP.envAllDown ⟨0, 0, 0⟩ "").1⟩

/-- C5: for every environment, every injected Executor fault pattern and
every batch, the MCP orchestrator emits one `processed` event per selected
Target in input order — so a fault on one Target never prevents the remaining
Targets from being attempted — and the final event is always the session
`disconnect` of the `finally` block. -/
theorem claim_C5 (env : MCP.Env) (r : Draws) (ts elapsed : Nat)
    (escape : String → Option String) (targets : List String) (count : Nat) :
    ((MCP.executeAutonomousWorkflow env r ts elapsed escape targets
        count).2).getLast? = some BatchEvent.disconnect
    ∧ ((MCP.executeAutonomousWorkflow env r ts elapsed escape targets
        count).2).filterMap eventUrl = targets.take count := by
  constructor
  · show ((BatchEvent.connect :: _) ++ [BatchEvent.disconnect]).getLast? = _
    exact List.getLast?_concat _
  · have h := batchLoop_processed_urls
      (fun url => (MCP.processHealthcareWebsite env r ts elapsed url).1)
      escape (targets.take count)
    simpa [MCP.executeAutonomousWorkflow, eventUrl] using h

/-- C6: running either batch entry point on the one-element target list `[T]`
with count 1 returns exactly one LeadRecord, and its status is `success` or
`failed` — no other status is observable. -/
theorem claim_C6 (envA : Agent.Env) (envM : MCP.Env) (r : Draws)
    (ts elapsed : Nat) (escape : String → Option String) (T : String) :
    (∃ rM, (MCP.executeAutonomousWorkflow envM r ts elapsed escape [T] 1).1
        = [rM] ∧ (rM.status = "success" ∨ rM.status = "failed"))
    ∧ (∃ rA, (Agent.executeAutonomousWorkflow envA r ts elapsed escape [T] 1).1
        = [rA] ∧ (rA.status = "success" ∨ rA.status = "failed")) := by
  constructor
  · cases he : escape T with
    | some e =>
      refine ⟨orchestratorFailedRecord T e, ?_, Or.inr rfl⟩
      simp [MCP.executeAutonomousWorkflow, batchLoop, he]
    | none =>
      refine ⟨(MCP.processHealthcareWebsite envM r ts elapsed T).1, ?_,
        mcp_process_status envM r ts elapsed T⟩
      simp [MCP.executeAutonomousWorkflow, batchLoop, he]
  · cases he : escape T with
    | some e =>
      refine ⟨orchestratorFailedRecord T e, ?_, Or.inr rfl⟩
      simp [Agent.executeAutonomousWorkflow, batchLoop, he]
    | none =>
      refine ⟨(Agent.processHealthcareWebsite envA r ts elapsed T).1, ?_,
        agent_process_status envA r ts elapsed T⟩
      simp [Agent.executeAutonomousWorkflow, batchLoop, he]

/-- C7: with the actual (non-throwing) Pipeline Executors, a batch over N
selected Targets suspends exactly N − 1 times: once between consecutive
Targets and never after the last, in both variants. -/
theorem claim_C7 (envA : Agent.Env) (envM : MCP.Env) (r : Draws)
    (ts elapsed : Nat) (targets : List String) (count : Nat) :
    ((MCP.executeAutonomousWorkflow envM r ts elapsed (fun _ => none) targets
        count).2).countP isSleep = (targets.take count).length - 1
    ∧ ((Agent.executeAutonomousWorkflow envA r ts elapsed (fun _ => none)
        targets count).2).countP isSleep = (targets.take count).length - 1 := by
  constructor
  · show ((BatchEvent.connect :: _) ++ [BatchEvent.disconnect]).countP isSleep = _
    rw [List.countP_append, List.countP_cons]
    simpa [isSleep] using batchLoop_sleep_count
      (fun url => (MCP.processHealthcareWebsite envM r ts elapsed url).1)
      (targets.take count)
  · exact batchLoop_sleep_count
      (fun url => (Agent.processHealthcareWebsite envA r ts elapsed url).1)
      (targets.take count)

/-- C8 counterexample: two fallback discovery runs on the same Target with
different (both realizable) random draws produce different contact names —
the pick is unseeded and not determined by the Target's identity. -/
theorem claim_C8_counterexample :
    (MCP.analyzeHealthcareWebsite MCP.envAllDown ⟨0, 0, 0⟩
        "https://www.example-clinic.com").contactName
      ≠ (MCP.analyzeHealthcareWebsite MCP.envAllDown ⟨4, 4, 0⟩
        "https://www.example-clinic.com").contactName := by
  decide

/-- C8 (amended): the fallback contact name is picked from the fixed
candidate lists by an unseeded random index: given the same draws it is
independent of the Target's identity, and for every realizable draw it is
some `first ++ " " ++ last` from the candidate lists; distinct draws may
produce distinct names on the same Target. -/
theorem claim_C8_amended (url url2 : String) (r : Draws) (i j : Nat)
    (hi : i < MCP.firstNames.length) (hj : j < MCP.lastNames.length) :
    (MCP.analyzeHealthcareWebsite MCP.envAllDown r url).contactName
      = (MCP.analyzeHealthcareWebsite MCP.envAllDown r url2).contactName
    ∧ ∃ f ∈ MCP.firstNames, ∃ l ∈ MCP.lastNames,
        MCP.generateDoctorName i j = f ++ " " ++ l := by
  refine ⟨rfl, MCP.firstNames[i], List.getElem_mem hi,
    MCP.lastNames[j], List.getElem_mem hj, ?_⟩
  unfold MCP.generateDoctorName
  rw [List.getD_eq_getElem _ _ hi, List.getD_eq_getElem _ _ hj]

/-- C8 witness: the amended statement instantiated at the draw (0, 0). -/
theorem claim_C8_witness :
    0 < MCP.firstNames.length ∧ 0 < MCP.lastNames.length ∧
      ∃ f ∈ MCP.firstNames, ∃ l ∈ MCP.lastNames,
        MCP.generateDoctorName 0 0 = f ++ " " ++ l :=
  ⟨by decide, by decide,
   (claim_C8_amended "" "" ⟨0, 0, 0⟩ 0 0 (by decide) (by decide)).2⟩

/-- C9 counterexample: a two-Target MCP batch in which the Executor's fault
for the first Target escapes to the orchestrator's per-Target handler: the
handler's `failed` record carries an error message but no elapsed duration
(the second record, a normal success, does carry its duration). -/
theorem claim_C9_counterexample :
    ((MCP.executeAutonomousWorkflow MCP.envAllUp ⟨0, 0, 0⟩ 0 7
        (fun u => if u = "https://www.theprivateclinic.co.uk"
                  then some "PipelineFault: malformed intermediate data"
                  else none)
        ["https://www.theprivateclinic.co.uk",
         "https://www.harleystreetskinclinic.com"] 2).1.map
      (fun rec2 => (rec2.status, rec2.error.isSome, rec2.duration)))
      = [("failed", true, none), ("success", false, some 7)] := by
  decide

/-- C9 (amended): a `failed` record produced by the Pipeline Executor's own
catch branch carries a human-readable error message and the elapsed time (in
both variants), but the record the Batch Orchestrator's per-Target handler
produces for an escaped Executor fault carries only the error message — it
has no duration field. -/
theorem claim_C9_amended (envA : Agent.Env) (envM : MCP.Env) (r : Draws)
    (ts elapsed : Nat) (url msg : String) :
    ((MCP.processHealthcareWebsite envM r ts elapsed url).1.status = "failed" →
      (MCP.processHealthcareWebsite envM r ts elapsed url).1.error.isSome = true
      ∧ (MCP.processHealthcareWebsite envM r ts elapsed url).1.duration
        = some elapsed)
    ∧ ((Agent.processHealthcareWebsite envA r ts elapsed url).1.status = "failed" →
      (Agent.processHealthcareWebsite envA r ts elapsed url).1.error.isSome = true
      ∧ (Agent.processHealthcareWebsite envA r ts elapsed url).1.duration
        = some elapsed)
    ∧ (orchestratorFailedRecord url msg).status = "failed"
    ∧ (orchestratorFailedRecord url msg).error = some msg
    ∧ (orchestratorFailedRecord url msg).duration = none := by
  refine ⟨?_, ?_, rfl, rfl, rfl⟩
  · obtain ⟨p, g, w, e, n⟩ := envM
    cases g <;>
      simp [MCP.processHealthcareWebsite, MCP.createPersonalizedRepository,
        failedRecord]
  · obtain ⟨n, g, w⟩ := envA
    cases n <;> cases g <;> cases w <;>
      simp [Agent.processHealthcareWebsite, Agent.storeLeadInNotion,
        Agent.createPersonalizedRepository, failedRecord]

/-- C9 witness: the amended statement applied to an all-providers-down MCP
run, whose record is indeed `failed`. -/
theorem claim_C9_witness :
    (MCP.processHealthcareWebsite MCP.envAllDown ⟨0, 0, 0⟩ 0 5
      "https://www.example-clinic.com").1.error.isSome = true
    ∧ (MCP.processHealthcareWebsite MCP.envAllDown ⟨0, 0, 0⟩ 0 5
      "https://www.example-clinic.com").1.duration = some 5 :=
  (claim_C9_amended Agent.envAllDown MCP.envAllDown ⟨0, 0, 0⟩ 0 5
    "https://www.example-clinic.com" "m").1 (by decide)

/-! ## Invariants of `generatePracticeId` -/

/-- No two consecutive dashes occur in the list. -/
def NoTwoDashes (l : List Char) : Prop :=
  List.Chain' (fun a b => ¬(a = '-' ∧ b = '-')) l

/-- Reversal preserves the no-consecutive-dashes invariant. -/
theorem NoTwoDashes.reverse {s : List Char} (h : NoTwoDashes s) :
    NoTwoDashes s.reverse := by
  unfold NoTwoDashes at h ⊢
  rw [List.chain'_reverse]
  exact List.Chain'.imp (fun a b hab hba => hab ⟨hba.2, hba.1⟩) h

/-- The dash-run collapse only drops characters. -/
theorem collapseDashesL_sublist (s : List Char) : (collapseDashesL s).Sublist s := by
  induction s with
  | nil => simp [collapseDashesL]
  | cons c cs ih =>
    simp only [collapseDashesL]
    by_cases hc : c = '-'
    · rw [if_pos hc]
      by_cases hh : (collapseDashesL cs).head? = some '-'
      · rw [if_pos hh]; exact ih.cons c
      · rw [if_neg hh]; subst hc; exact ih.cons₂ '-'
    · rw [if_neg hc]; exact ih.cons₂ c

/-- The dash-run collapse leaves no two consecutive dashes. -/
theorem collapseDashesL_noDD (s : List Char) : NoTwoDashes (collapseDashesL s) := by
  induction s with
  | nil => simp [collapseDashesL, NoTwoDashes]
  | cons c cs ih =>
    simp only [collapseDashesL]
    by_cases hc : c = '-'
    · rw [if_pos hc]
      by_cases hh : (collapseDashesL cs).head? = some '-'
      · rw [if_pos hh]; exact ih
      · rw [if_neg hh]
        refine List.chain'_cons'.2 ⟨?_, ih⟩
        intro y hy hcontra
        rw [Option.mem_def] at hy
        exact hh (by rw [hy, hcontra.2])
    · rw [if_neg hc]
      refine List.chain'_cons'.2 ⟨?_, ih⟩
      intro y _ hcontra
      exact hc hcontra.1

/-- Dropping a leading dash only drops a character. -/
theorem stripLeadDash_sublist (s : List Char) : (stripLeadDash s).Sublist s := by
  cases s with
  | nil => simp [stripLeadDash]
  | cons c cs =>
    simp only [stripLeadDash]
    by_cases hc : c = '-'
    · rw [if_pos hc]; exact List.sublist_cons_self c cs
    · rw [if_neg hc]

/-- Dropping a leading dash preserves the no-consecutive-dashes invariant. -/
theorem stripLeadDash_noDD {s : List Char} (h : NoTwoDashes s) :
    NoTwoDashes (stripLeadDash s) := by
  cases s with
  | nil => exact h
  | cons c cs =>
    simp only [stripLeadDash]
    by_cases hc : c = '-'
    · rw [if_pos hc]; exact (List.chain'_cons'.1 h).2
    · rw [if_neg hc]; exact h

/-- On a string with no two consecutive dashes, the lead-dash strip leaves a
string that does not start with a dash. -/
theorem stripLeadDash_head {s : List Char} (h : NoTwoDashes s) :
    (stripLeadDash s).head? ≠ some '-' := by
  cases s with
  | nil => simp [stripLeadDash]
  | cons c cs =>
    simp only [stripLeadDash]
    by_cases hc : c = '-'
    · rw [if_pos hc]
      intro hcs
      exact (List.chain'_cons'.1 h).1 '-' (Option.mem_def.2 hcs) ⟨hc, rfl⟩
    · rw [if_neg hc]
      simp [hc]

/-- The lead-dash strip preserves "does not end with a dash". -/
theorem stripLeadDash_getLast {s : List Char} (h : s.getLast? ≠ some '-') :
    (stripLeadDash s).getLast? ≠ some '-' := by
  cases s with
  | nil => simp [stripLeadDash]
  | cons c cs =>
    simp only [stripLeadDash]
    by_cases hc : c = '-'
    · rw [if_pos hc]
      cases cs with
      | nil => simp
      | cons d ds =>
        intro hlast
        exact h (by rw [List.getLast?_cons_cons]; exact hlast)
    · rw [if_neg hc]; exact h

/-- Every character the dashify step emits is a lowercase alphanumeric or a
dash. -/
theorem dashifyL_mem {c : Char} {s : List Char} (h : c ∈ dashifyL s) :
    isLowerAlnum c = true ∨ c = '-' := by
  simp only [dashifyL, List.mem_map] at h
  obtain ⟨x, _, hx⟩ := h
  by_cases hla : isLowerAlnum x
  · left; rw [← hx]; simp [hla]
  · right; rw [← hx]; simp [hla]

/-- The head of a nonempty prefix is the head of the list. -/
theorem head?_take_eq {α : Type} {l : List α} {n : Nat} {c : α}
    (h : (l.take n).head? = some c) : l.head? = some c := by
  cases l with
  | nil => simp at h
  | cons a as =>
    cases n with
    | zero => simp at h
    | succ m => simpa using h

/-- C10 counterexample: for the 28-character domain below the cleaned string
is longer than 25 characters and the final `substring(0, 25)` — which runs
after the edge-dash stripping — cuts it right after a hyphen, so the
generated practice identifier ends with a hyphen. -/
theorem claim_C10_counterexample :
    generatePracticeId "aaaaaaaaaaaaaaaaaaaaaaaa.bcd"
      = "aaaaaaaaaaaaaaaaaaaaaaaa-"
    ∧ (generatePracticeId "aaaaaaaaaaaaaaaaaaaaaaaa.bcd").data.getLast?
      = some '-' := by
  constructor <;> decide

/-- C10 (amended): for every input domain the generated practice identifier
contains only lowercase letters, digits and dashes, has no two consecutive
dashes, does not start with a dash, and is at most 25 characters long; it can
end with a dash only when the 25-character truncation cut a longer cleaned
string, i.e. only when the identifier is exactly 25 characters long. -/
theorem claim_C10_amended (domain : String) :
    (∀ c ∈ (generatePracticeId domain).data, isLowerAlnum c = true ∨ c = '-')
    ∧ NoTwoDashes (generatePracticeId domain).data
    ∧ (generatePracticeId domain).data.head? ≠ some '-'
    ∧ (generatePracticeId domain).data.length ≤ 25
    ∧ ((generatePracticeId domain).data.getLast? = some '-' →
        (generatePracticeId domain).data.length = 25) := by
  have hdata : (generatePracticeId domain).data
      = generatePracticeIdL domain.data := rfl
  rw [hdata]
  set t := dashifyL ((stripTldL (stripWwwL domain.data)).map Char.toLower)
    with ht
  set u := collapseDashesL t with hu
  have hu_noDD : NoTwoDashes u := collapseDashesL_noDD t
  set A := stripLeadDash u with hA
  have hA_noDD : NoTwoDashes A := stripLeadDash_noDD hu_noDD
  have hA_head : A.head? ≠ some '-' := stripLeadDash_head hu_noDD
  have hAr_noDD : NoTwoDashes A.reverse := hA_noDD.reverse
  set B := stripLeadDash A.reverse with hB
  have hB_noDD : NoTwoDashes B := stripLeadDash_noDD hAr_noDD
  have hB_head : B.head? ≠ some '-' := stripLeadDash_head hAr_noDD
  have hAr_last : A.reverse.getLast? ≠ some '-' := by
    have he : A.reverse.getLast? = A.head? := by
      rw [← List.head?_reverse, List.reverse_reverse]
    rw [he]; exact hA_head
  have hB_last : B.getLast? ≠ some '-' := stripLeadDash_getLast hAr_last
  have hres : generatePracticeIdL domain.data = B.reverse.take 25 := rfl
  rw [hres]
  have hBr_noDD : NoTwoDashes B.reverse := hB_noDD.reverse
  have hBr_head : B.reverse.head? ≠ some '-' := by
    rw [List.head?_reverse]; exact hB_last
  have hBr_last : B.reverse.getLast? ≠ some '-' := by
    have he : B.reverse.getLast? = B.head? := by
      rw [← List.head?_reverse, List.reverse_reverse]
    rw [he]; exact hB_head
  have hBr_sub : B.reverse.Sublist t := by
    have h1 : B.Sublist A.reverse := stripLeadDash_sublist A.reverse
    have h2 : B.reverse.Sublist A := by
      have := h1.reverse
      rwa [List.reverse_reverse] at this
    exact h2.trans ((stripLeadDash_sublist u).trans (collapseDashesL_sublist t))
  refine ⟨?_, ?_, ?_, ?_, ?_⟩
  · intro c hc
    exact dashifyL_mem (((List.take_sublist 25 B.reverse).trans hBr_sub).mem hc)
  · exact List.Chain'.take hBr_noDD 25
  · intro hhd
    exact hBr_head (head?_take_eq hhd)
  · exact List.length_take_le 25 B.reverse
  · intro hlast
    rcases le_or_lt B.reverse.length 25 with hle | hlt
    · rw [List.take_of_length_le hle] at hlast
      exact absurd hlast hBr_last
    · rw [List.length_take]
      omega

/-- C10 witness: the amended invariants instantiated at a concrete domain of
the repository's target list. -/
theorem claim_C10_witness :
    (generatePracticeId "www.theprivateclinic.co.uk").data.length ≤ 25
    ∧ (generatePracticeId "www.theprivateclinic.co.uk").data.head? ≠ some '-' :=
  ⟨(claim_C10_amended "www.theprivateclinic.co.uk").2.2.2.1,
   (claim_C10_amended "www.theprivateclinic.co.uk").2.2.1⟩
